import Mathlib

/-!
Verification of the ScanMaster drawing-engine core
(`scanmaster_drawing_engine/geometry_engine.py` and
`scanmaster_drawing_engine/drawing_engine.py`) against its
natural-language specification.

The two Python entry points, `GeometryEngine.build_solid` and
`generate_drawing`, are shallowly embedded as pure Lean functions.
Numeric fields (floats in Python) become `ℚ`.  Each embedded function
returns, besides its result or error, the ordered list of calls it makes
into the external services (CadQuery solid kernel, FreeCAD/TechDraw
document renderer), so that statements about "no call before a failure"
and about the order of boolean subtractions can be made precise.

CadQuery conventions used by the semantic layer (from cadquery's
`occ_impl/geom.py`, `Plane.named`):
  * Workplane "XY": xDir = (1,0,0), normal = (0,0,1), so local (u,v,w)
    maps to global (u, v, w).
  * Workplane "YZ": xDir = (0,1,0), normal = (1,0,0), yDir = normal
    cross xDir = (0,0,1), so local (u,v,w) maps to global (w, u, v).
  * Workplane "XZ": xDir = (1,0,0), normal = (0,-1,0), yDir = (0,0,1),
    so local (u,v,w) maps to global (u, -w, v).
  * `Workplane.extrude(d, both=True)` extrudes the profile by `d` in
    both normal directions, i.e. the local w-extent is [-d, d] (total
    length 2·d); with `both=False` the extent is [0, d].
  * `Workplane.box(w, d, h, centered=(bx, by, bz))` spans, in each
    local coordinate, [-size/2, size/2] when the flag is set and
    [0, size] otherwise.
-/

namespace ScanMaster

/-! ## Data model (geometry_engine.py) -/

/-- A point `(x, y, z)`; Python `tuple[float, float, float]`. -/
structure Point3 where
  x : ℚ
  y : ℚ
  z : ℚ
deriving DecidableEq

/-- `SketchCircle(radius, is_hole)`. -/
structure SketchCircle where
  radius : ℚ
  is_hole : Bool
deriving DecidableEq

/-- `Extrude(length)`: extrusion along +Z from the current sketch. -/
structure Extrude where
  length : ℚ
deriving DecidableEq

/-- `BaseBox(width, depth, height, centered_xy, centered_z)`. -/
structure BaseBox where
  width : ℚ
  depth : ℚ
  height : ℚ
  centered_xy : Bool
  centered_z : Bool
deriving DecidableEq

/-- `CutBox(width, depth, height, center)`: subtracted box. -/
structure CutBox where
  width : ℚ
  depth : ℚ
  height : ℚ
  center : Point3
deriving DecidableEq

/-- `ThroughHole(radius, depth, axis, center)`.  The `axis` field is a
string, matching the Python code's runtime check `axis in ("x","y","z")`. -/
structure ThroughHole where
  radius : ℚ
  depth : ℚ
  axis : String
  center : Point3
deriving DecidableEq

/-- `Operation = Union[SketchCircle, Extrude, BaseBox, CutBox, ThroughHole]`. -/
inductive Operation where
  | sketchCircle (sc : SketchCircle)
  | extrude (e : Extrude)
  | baseBox (bb : BaseBox)
  | cutBox (cb : CutBox)
  | throughHole (th : ThroughHole)
deriving DecidableEq

/-- `SolidSpec(id, operations)`. -/
structure SolidSpec where
  id : String
  operations : List Operation
deriving DecidableEq

/-- One constructor per `raise` site in `GeometryEngine.build_solid`
(the Python code raises `ValueError` with a distinct message at each
site; the spec groups them into the kinds named in its §7 taxonomy). -/
inductive GeomErr where
  | emptySpec            -- "contains no operations"
  | badCircleRadius      -- "SketchCircle.radius must be positive"
  | duplicateExtrude     -- "contains multiple Extrude operations"
  | badExtrudeLength     -- "Extrude.length must be positive"
  | duplicateBaseBox     -- "defines multiple BaseBox operations"
  | badBaseBoxDims       -- "BaseBox dimensions must be positive"
  | badCutBoxDims        -- "CutBox dimensions must be positive"
  | badThroughHoleDims   -- "ThroughHole.radius/depth must be positive"
  | badThroughHoleAxis   -- "ThroughHole.axis must be one of 'x', 'y', 'z'"
  | mixedBaseStyle       -- "mixes BaseBox with sketch/extrude operations"
  | noBaseStyle          -- "must define either a BaseBox or an Extrude"
  | noPositiveGeometry   -- "defines no positive geometry to extrude"
deriving DecidableEq

/-! ## Tools (arguments of boolean subtractions) -/

/-- The cylindrical tool built for a `ThroughHole`:
`cq.Workplane(plane).center(c1, c2).circle(radius).extrude(extDist, both=True)`. -/
structure CylTool where
  plane : String
  c1 : ℚ
  c2 : ℚ
  radius : ℚ
  extDist : ℚ
deriving DecidableEq

/-- The box tool built for a `CutBox`:
`cq.Workplane("XY").center(c1, c2).box(width, depth, height,
centered=(True, True, True)).translate((0, 0, tz))`. -/
structure BoxTool where
  width : ℚ
  depth : ℚ
  height : ℚ
  c1 : ℚ
  c2 : ℚ
  tz : ℚ
deriving DecidableEq

/-- The tool built for an `is_hole=True` circle:
`cq.Workplane("XY").circle(radius).extrude(length)`. -/
structure CircleTool where
  radius : ℚ
  length : ℚ
deriving DecidableEq

/-- A subtracted tool solid. -/
inductive Tool where
  | cyl (t : CylTool)
  | box (b : BoxTool)
  | circle (c : CircleTool)
deriving DecidableEq

/-- Calls made into the external solid-modeling service (CadQuery). -/
inductive KernelCall where
  | workplane (plane : String)
  | sketchCenter (a b : ℚ)
  | sketchCircle (r : ℚ)
  | extrudeCall (dist : ℚ) (both : Bool)
  | boxCall (w d h : ℚ) (cx cy cz : Bool)
  | translateCall (x y z : ℚ)
  | cutCall (tool : Tool)
deriving DecidableEq

/-- Symbolic result solid: the base primitive with the subtracted tools. -/
inductive SolidExpr where
  | baseBox (bb : BaseBox)
  | extrudedCircles (radii : List ℚ) (length : ℚ)
  | cut (s : SolidExpr) (t : Tool)
deriving DecidableEq

/-! ## Classification pass (geometry_engine.py lines 140-183) -/

/-- The five buckets filled by the first pass of `build_solid`. -/
structure Buckets where
  sketch_circles : List SketchCircle
  extrude_op : Option Extrude
  base_box : Option BaseBox
  cut_boxes : List CutBox
  through_holes : List ThroughHole
deriving DecidableEq

def emptyBuckets : Buckets := ⟨[], none, none, [], []⟩

/-- One iteration of the classification loop, with the per-operation
checks in the order the Python code performs them. -/
def classifyStep (b : Buckets) (op : Operation) : Except GeomErr Buckets :=
  match op with
  | .sketchCircle sc =>
      if sc.radius ≤ 0 then .error .badCircleRadius
      else .ok { b with sketch_circles := b.sketch_circles ++ [sc] }
  | .extrude e =>
      match b.extrude_op with
      | some _ => .error .duplicateExtrude
      | none =>
          if e.length ≤ 0 then .error .badExtrudeLength
          else .ok { b with extrude_op := some e }
  | .baseBox bb =>
      match b.base_box with
      | some _ => .error .duplicateBaseBox
      | none =>
          if bb.width ≤ 0 ∨ bb.depth ≤ 0 ∨ bb.height ≤ 0 then .error .badBaseBoxDims
          else .ok { b with base_box := some bb }
  | .cutBox cb =>
      if cb.width ≤ 0 ∨ cb.depth ≤ 0 ∨ cb.height ≤ 0 then .error .badCutBoxDims
      else .ok { b with cut_boxes := b.cut_boxes ++ [cb] }
  | .throughHole th =>
      if th.radius ≤ 0 ∨ th.depth ≤ 0 then .error .badThroughHoleDims
      else if ¬(th.axis = "x" ∨ th.axis = "y" ∨ th.axis = "z") then .error .badThroughHoleAxis
      else .ok { b with through_holes := b.through_holes ++ [th] }

def classifyFrom (b : Buckets) : List Operation → Except GeomErr Buckets
  | [] => .ok b
  | op :: ops =>
      match classifyStep b op with
      | .error e => .error e
      | .ok b2 => classifyFrom b2 ops

def classify (ops : List Operation) : Except GeomErr Buckets :=
  classifyFrom emptyBuckets ops

/-! ## Projections and per-operation validity (for stating claims) -/

def circleOf : Operation → Option SketchCircle
  | .sketchCircle sc => some sc
  | _ => none

def extrudeOf : Operation → Option Extrude
  | .extrude e => some e
  | _ => none

def baseBoxOf : Operation → Option BaseBox
  | .baseBox bb => some bb
  | _ => none

def cutBoxOf : Operation → Option CutBox
  | .cutBox cb => some cb
  | _ => none

def throughHoleOf : Operation → Option ThroughHole
  | .throughHole th => some th
  | _ => none

/-- The per-operation numeric constraints of the classification pass:
all lengths/radii/depths strictly positive, axis ∈ {x, y, z}. -/
def validOp : Operation → Bool
  | .sketchCircle sc => decide (0 < sc.radius)
  | .extrude e => decide (0 < e.length)
  | .baseBox bb => decide (0 < bb.width ∧ 0 < bb.depth ∧ 0 < bb.height)
  | .cutBox cb => decide (0 < cb.width ∧ 0 < cb.depth ∧ 0 < cb.height)
  | .throughHole th =>
      decide (0 < th.radius ∧ 0 < th.depth ∧ (th.axis = "x" ∨ th.axis = "y" ∨ th.axis = "z"))

/-! ## Construction (geometry_engine.py lines 197-272) -/

/-- List concatenation of per-element call lists (trace assembly). -/
def concatMap (f : α → List β) : List α → List β
  | [] => []
  | x :: xs => f x ++ concatMap f xs

def nonHoleCircles (b : Buckets) : List SketchCircle :=
  b.sketch_circles.filter (fun sc => !sc.is_hole)

def holeCircles (b : Buckets) : List SketchCircle :=
  b.sketch_circles.filter (fun sc => sc.is_hole)

/-- The cylinder for one `ThroughHole`, exactly as lines 246-268 build it:
the plane is chosen by axis (z → "XY", x → "YZ", y → "XZ"), the
in-plane center arguments are those passed to `.center(...)`, and the
extrusion distance is `hole.depth * 2` with `both=True`. -/
def holeTool (th : ThroughHole) : CylTool :=
  if th.axis = "z" then ⟨"XY", th.center.x, th.center.y, th.radius, th.depth * 2⟩
  else if th.axis = "x" then ⟨"YZ", th.center.z, th.center.y, th.radius, th.depth * 2⟩
  else ⟨"XZ", th.center.x, th.center.z, th.radius, th.depth * 2⟩

def throughHoleCalls (th : ThroughHole) : List KernelCall :=
  [.workplane (holeTool th).plane,
   .sketchCenter (holeTool th).c1 (holeTool th).c2,
   .sketchCircle th.radius,
   .extrudeCall (th.depth * 2) true,
   .cutCall (.cyl (holeTool th))]

/-- The box tool for one `CutBox` (lines 236-244): made on "XY" at
`.center(cx, cy)` with all-centered flags, then translated by `(0, 0, cz)`. -/
def cutBoxTool (cb : CutBox) : BoxTool :=
  ⟨cb.width, cb.depth, cb.height, cb.center.x, cb.center.y, cb.center.z⟩

def cutBoxCalls (cb : CutBox) : List KernelCall :=
  [.workplane "XY",
   .sketchCenter cb.center.x cb.center.y,
   .boxCall cb.width cb.depth cb.height true true true,
   .translateCall 0 0 cb.center.z,
   .cutCall (.box (cutBoxTool cb))]

/-- The tool for one `is_hole=True` circle (lines 229-233). -/
def holeCircleCalls (len : ℚ) (sc : SketchCircle) : List KernelCall :=
  [.workplane "XY",
   .sketchCircle sc.radius,
   .extrudeCall len false,
   .cutCall (.circle ⟨sc.radius, len⟩)]

/-- Calls of the modifier pass: all cut boxes, then all through holes
(lines 236-270). -/
def modifierCalls (b : Buckets) : List KernelCall :=
  concatMap cutBoxCalls b.cut_boxes ++ concatMap throughHoleCalls b.through_holes

/-- Result solid of the modifier pass. -/
def modifierSolid (b : Buckets) (base : SolidExpr) : SolidExpr :=
  (b.through_holes.map (fun th => Tool.cyl (holeTool th))).foldl .cut
    ((b.cut_boxes.map (fun cb => Tool.box (cutBoxTool cb))).foldl .cut base)

/-- Calls of the BaseBox base construction (lines 198-208): one box with
`centered=(centered_xy, centered_xy, centered_z)`. -/
def boxBaseCalls (bb : BaseBox) : List KernelCall :=
  [.workplane "XY",
   .boxCall bb.width bb.depth bb.height bb.centered_xy bb.centered_xy bb.centered_z]

/-- Calls of the sketch+extrude base construction for a spec that passes
the positive-geometry check (lines 210-233): the non-hole circles are
drawn into one sketch, extruded once, then each hole circle is extruded
independently and subtracted, in list order. -/
def sketchBaseCalls (b : Buckets) (ex : Extrude) : List KernelCall :=
  KernelCall.workplane "XY" ::
    ((nonHoleCircles b).map (fun sc => KernelCall.sketchCircle sc.radius)
      ++ [KernelCall.extrudeCall ex.length false]
      ++ concatMap (holeCircleCalls ex.length) (holeCircles b))

def sketchBaseSolid (b : Buckets) (ex : Extrude) : SolidExpr :=
  ((holeCircles b).map (fun sc => Tool.circle ⟨sc.radius, ex.length⟩)).foldl .cut
    (.extrudedCircles ((nonHoleCircles b).map (fun sc => sc.radius)) ex.length)

/-- Shallow embedding of `GeometryEngine.build_solid` (lines 121-272).
Returns the ordered list of external kernel calls made before returning
or raising, and either the error raised or the symbolic result solid. -/
def buildSolid (spec : SolidSpec) : List KernelCall × Except GeomErr SolidExpr :=
  if spec.operations = [] then ([], .error .emptySpec)
  else
    match classify spec.operations with
    | .error e => ([], .error e)
    | .ok b =>
        match b.base_box with
        | some bb =>
            if b.sketch_circles ≠ [] ∨ b.extrude_op ≠ none then ([], .error .mixedBaseStyle)
            else (boxBaseCalls bb ++ modifierCalls b, .ok (modifierSolid b (.baseBox bb)))
        | none =>
            match b.extrude_op with
            | none => ([], .error .noBaseStyle)
            | some ex =>
                if nonHoleCircles b = [] then
                  ([KernelCall.workplane "XY"], .error .noPositiveGeometry)
                else
                  (sketchBaseCalls b ex ++ modifierCalls b,
                   .ok (modifierSolid b (sketchBaseSolid b ex)))

/-- Kernel calls that construct a solid or mutate one (extrusions, box
primitives, boolean cuts); making a workplane, drawing a sketch circle
or moving the sketch origin does not. -/
def constructsSolid : KernelCall → Bool
  | .extrudeCall _ _ => true
  | .boxCall _ _ _ _ _ _ => true
  | .translateCall _ _ _ => true
  | .cutCall _ => true
  | _ => false

/-- The tool of a boolean-subtraction call, if any. -/
def cutToolOf : KernelCall → Option Tool
  | .cutCall t => some t
  | _ => none

/-! ## Point-set semantics of the tools and solids -/

/-- One coordinate of CadQuery `box` with a centering flag:
`[-size/2, size/2]` when centered, `[0, size]` otherwise. -/
def inExtentB : Bool → ℚ → ℚ → Bool
  | true, size, coord => decide (2 * |coord| ≤ size)
  | false, size, coord => decide (0 ≤ coord ∧ coord ≤ size)

/-- Membership in a through-hole tool, from the CadQuery plane frames in
the header comment.  On plane "XY" the circle center `(c1, c2)` is at
global `(c1, c2, 0)` and the extrusion runs along ±Z; on "YZ" local
(u,v,w) is global (w,u,v), so the center is at `(0, c1, c2)` with the
extrusion along ±X; on "XZ" local (u,v,w) is global (u,-w,v), so the
center is at `(c1, 0, c2)` with the extrusion along ∓Y. -/
def memCyl (t : CylTool) (p : Point3) : Bool :=
  if t.plane = "XY" then
    decide ((p.x - t.c1) ^ 2 + (p.y - t.c2) ^ 2 ≤ t.radius ^ 2 ∧
      -t.extDist ≤ p.z ∧ p.z ≤ t.extDist)
  else if t.plane = "YZ" then
    decide ((p.y - t.c1) ^ 2 + (p.z - t.c2) ^ 2 ≤ t.radius ^ 2 ∧
      -t.extDist ≤ p.x ∧ p.x ≤ t.extDist)
  else
    decide ((p.x - t.c1) ^ 2 + (p.z - t.c2) ^ 2 ≤ t.radius ^ 2 ∧
      -t.extDist ≤ -p.y ∧ -p.y ≤ t.extDist)

/-- The cylinder's axis direction: the workplane normal. -/
def planeNormal (plane : String) : Point3 :=
  if plane = "XY" then ⟨0, 0, 1⟩
  else if plane = "YZ" then ⟨1, 0, 0⟩
  else ⟨0, -1, 0⟩

/-- Global position of in-plane point `(a, b)` of a named workplane. -/
def planePoint (plane : String) (a b : ℚ) : Point3 :=
  if plane = "XY" then ⟨a, b, 0⟩
  else if plane = "YZ" then ⟨0, a, b⟩
  else ⟨a, 0, b⟩

/-- The point of the tool's axis at parameter `s`. -/
def axisPointAt (t : CylTool) (s : ℚ) : Point3 :=
  ⟨(planePoint t.plane t.c1 t.c2).x + s * (planeNormal t.plane).x,
   (planePoint t.plane t.c1 t.c2).y + s * (planeNormal t.plane).y,
   (planePoint t.plane t.c1 t.c2).z + s * (planeNormal t.plane).z⟩

/-- Decidable test for "the tool's axis line passes through `p`". -/
def axisContains (t : CylTool) (p : Point3) : Bool :=
  if t.plane = "XY" then decide (p.x = t.c1 ∧ p.y = t.c2)
  else if t.plane = "YZ" then decide (p.y = t.c1 ∧ p.z = t.c2)
  else decide (p.x = t.c1 ∧ p.z = t.c2)

/-- Reflection of a point through the tool's sketch plane (negating the
coordinate along the extrusion axis). -/
def axialReflect (t : CylTool) (p : Point3) : Point3 :=
  if t.plane = "XY" then ⟨p.x, p.y, -p.z⟩
  else if t.plane = "YZ" then ⟨-p.x, p.y, p.z⟩
  else ⟨p.x, -p.y, p.z⟩

/-- Membership in a cut-box tool: the box is centered at
`(c1, c2, 0)` (all centering flags set, sketch origin moved to
`(c1, c2)`) and then translated by `(0, 0, tz)`. -/
def memBoxTool (b : BoxTool) (p : Point3) : Bool :=
  inExtentB true b.width (p.x - b.c1) &&
  inExtentB true b.depth (p.y - b.c2) &&
  inExtentB true b.height (p.z - b.tz)

/-- Membership in a hole-circle tool: circle at the origin of "XY",
extruded upward by `length` (`both=False`). -/
def memCircleTool (c : CircleTool) (p : Point3) : Bool :=
  decide (p.x ^ 2 + p.y ^ 2 ≤ c.radius ^ 2 ∧ 0 ≤ p.z ∧ p.z ≤ c.length)

def memTool : Tool → Point3 → Bool
  | .cyl t, p => memCyl t p
  | .box b, p => memBoxTool b p
  | .circle c, p => memCircleTool c p

/-- Membership in the base box: per-coordinate extents from the
centering flags (XY flags are the same flag, as on line 206). -/
def memBaseBox (bb : BaseBox) (p : Point3) : Bool :=
  inExtentB bb.centered_xy bb.width p.x &&
  inExtentB bb.centered_xy bb.depth p.y &&
  inExtentB bb.centered_z bb.height p.z

/-- Point-set semantics of the symbolic solid. -/
def memSolid : SolidExpr → Point3 → Bool
  | .baseBox bb, p => memBaseBox bb p
  | .extrudedCircles radii len, p =>
      radii.any (fun r => decide (p.x ^ 2 + p.y ^ 2 ≤ r ^ 2)) &&
      decide (0 ≤ p.z ∧ p.z ≤ len)
  | .cut s t, p => memSolid s p && !memTool t p

/-! ## Data model (drawing_engine.py) -/

structure ViewSpec where
  id : String
  direction : ℚ × ℚ × ℚ
  is_section : Bool
  section_normal : Option (ℚ × ℚ × ℚ)
  scale : Option ℚ
deriving DecidableEq

structure DimensionSpec where
  view_id : String
  kind : String
  label : String
  edges : List String
deriving DecidableEq

structure DrawingSpec where
  page_title : String
  template_path : String
  views : List ViewSpec
  dimensions : List DimensionSpec
deriving DecidableEq

/-- The one error `generate_drawing` itself raises: a `DimensionSpec`
referring to an unknown `view_id` (a `KeyError` at lines 188-191). -/
inductive DrawErr where
  | unknownViewReference (view_id : String)
deriving DecidableEq

/-- Calls made into the external FreeCAD/TechDraw document service. -/
inductive DocCall where
  | newDocument (title : String)
  | addBody
  | recomputeDoc
  | addPage
  | setTemplate (path : String)
  | addView (v : ViewSpec)
  | addDimension (viewId : String) (dimType : String) (edges : List String) (label : String)
  | exportPdf (path : String)
  | exportSvg (path : String)
deriving DecidableEq

/-- Calls that create content in or recompute the open document.
Exports write files; they do not mutate the document. -/
def mutatesDocument : DocCall → Bool
  | .newDocument _ => false
  | .exportPdf _ => false
  | .exportSvg _ => false
  | _ => true

def isExport : DocCall → Bool
  | .exportPdf _ => true
  | .exportSvg _ => true
  | _ => false

/-- The TechDraw `Type` assigned at lines 195-203: `kind` lowered, then
{linear, distance} → "Distance", {diameter, radial, radius} →
"Diameter", anything else passed through verbatim. -/
def techDrawType (kind : String) : String :=
  if kind.toLower = "linear" ∨ kind.toLower = "distance" then "Distance"
  else if kind.toLower = "diameter" ∨ kind.toLower = "radial" ∨ kind.toLower = "radius" then
    "Diameter"
  else kind

/-- The ids under which views are registered (the keys of the
`view_objects` dict; duplicates overwrite the object, not the key). -/
def viewIds (ds : DrawingSpec) : List String :=
  ds.views.map (fun v => v.id)

/-- The dimension pass (lines 186-209): for each `DimensionSpec` in
order, resolve `view_id` (stopping with the unknown id on failure),
else emit one dimension annotation. -/
def dimensionPass (ids : List String) : List DimensionSpec → List DocCall × Option String
  | [] => ([], none)
  | d :: ds =>
      if d.view_id ∈ ids then
        ((DocCall.addDimension d.view_id (techDrawType d.kind) d.edges d.label) ::
          (dimensionPass ids ds).1,
         (dimensionPass ids ds).2)
      else ([], some d.view_id)

/-- The document-service calls made before the dimension pass (lines
151-183): document, part body, recompute, page, template, one view per
`ViewSpec`, recompute. -/
def preCalls (ds : DrawingSpec) : List DocCall :=
  [.newDocument ds.page_title, .addBody, .recomputeDoc, .addPage,
   .setTemplate ds.template_path]
    ++ ds.views.map DocCall.addView ++ [.recomputeDoc]

/-- Shallow embedding of `generate_drawing` (lines 125-221): the ordered
document-service calls and the error, if one is raised.  The document,
part body, page, template and all views are created before the dimension
pass; the recompute and the exports follow it. -/
def generateDrawing (ds : DrawingSpec) (output_pdf : String) (output_svg : Option String) :
    List DocCall × Option DrawErr :=
  match dimensionPass (viewIds ds) ds.dimensions with
  | (calls, some v) => (preCalls ds ++ calls, some (.unknownViewReference v))
  | (calls, none) =>
      (preCalls ds ++ calls ++ [DocCall.recomputeDoc, DocCall.exportPdf output_pdf]
        ++ (match output_svg with
            | some p => [DocCall.exportSvg p]
            | none => []),
       none)

/-! ## Claim-side descriptions and concrete inputs used by the claims -/

instance {ε α : Type} [DecidableEq ε] [DecidableEq α] : DecidableEq (Except ε α) :=
  fun a b =>
    match a, b with
    | .ok x, .ok y =>
        if h : x = y then isTrue (by rw [h]) else isFalse (fun hh => h (Except.ok.inj hh))
    | .error x, .error y =>
        if h : x = y then isTrue (by rw [h]) else isFalse (fun hh => h (Except.error.inj hh))
    | .ok _, .error _ => isFalse (fun hh => Except.noConfusion hh)
    | .error _, .ok _ => isFalse (fun hh => Except.noConfusion hh)

/-- The tools the spec says are subtracted first: each `is_hole=true`
circle, in operation-list order, extruded to the (unique) extrusion
length.  Empty when the spec has no `Extrude` (box style). -/
def holeCircleToolsOf (ops : List Operation) : List Tool :=
  match ops.filterMap extrudeOf with
  | [ex] => ((ops.filterMap circleOf).filter (fun sc => sc.is_hole)).map
      (fun sc => Tool.circle ⟨sc.radius, ex.length⟩)
  | _ => []

/-- A valid box-style spec with an x-axis through-hole whose center has
different y and z coordinates. -/
def c2spec : SolidSpec :=
  ⟨"c2", [.baseBox ⟨4, 4, 4, true, true⟩, .throughHole ⟨1, 3, "x", ⟨0, 1, 2⟩⟩]⟩

/-- A valid box-style spec (box spans z ∈ [0, 10]) with a z-axis
through-hole of depth 1 centered at `(0, 0, 5)`. -/
def c3spec : SolidSpec :=
  ⟨"c3", [.baseBox ⟨10, 10, 10, true, false⟩, .throughHole ⟨1, 1, "z", ⟨0, 0, 5⟩⟩]⟩

/-- The solid `buildSolid` produces for `c3spec`. -/
def c3solid : SolidExpr :=
  .cut (.baseBox ⟨10, 10, 10, true, false⟩) (.cyl ⟨"XY", 0, 0, 1, 2⟩)

/-- A spec containing a `BaseBox` together with a `SketchCircle` whose
radius is not positive. -/
def c4spec : SolidSpec :=
  ⟨"c4", [.baseBox ⟨1, 1, 1, true, false⟩, .sketchCircle ⟨-1, false⟩]⟩

/-- A spec mixing a `BaseBox` with an `Extrude` (all parameters valid). -/
def mixedSpec : SolidSpec :=
  ⟨"mixed", [.baseBox ⟨1, 1, 1, true, false⟩, .extrude ⟨1⟩]⟩

/-- A non-empty spec containing neither a `BaseBox` nor an `Extrude`. -/
def noBaseSpec : SolidSpec :=
  ⟨"nobase", [.sketchCircle ⟨1, false⟩]⟩

/-- A spec with two `Extrude` operations. -/
def dupExtrudeSpec : SolidSpec :=
  ⟨"dup", [.extrude ⟨1⟩, .extrude ⟨1⟩]⟩

/-- A sketch-style spec whose only circle is a hole. -/
def w6spec : SolidSpec :=
  ⟨"w6", [.sketchCircle ⟨1, true⟩, .extrude ⟨2⟩]⟩

/-- The buckets `classify` produces for `w6spec`. -/
def w6buckets : Buckets :=
  ⟨[⟨1, true⟩], some ⟨2⟩, none, [], []⟩

/-- A sketch-style spec whose only circle is a hole (used to exercise
the validation-isolation theorem at a failure with a non-empty trace). -/
def allHolesSpec : SolidSpec :=
  ⟨"allholes", [.sketchCircle ⟨3, true⟩, .extrude ⟨5⟩]⟩

/-- The calibration-block spec from `test_geometry_engine.py` (its 7.5
is the rational 15/2). -/
def blockSpec : SolidSpec :=
  ⟨"test-block",
   [.baseBox ⟨50, 20, 10, false, false⟩,
    .cutBox ⟨20, 20, 5, ⟨10, 10, 15 / 2⟩⟩,
    .throughHole ⟨3, 10, "z", ⟨30, 0, 5⟩⟩]⟩

/-- The solid `buildSolid` produces for `blockSpec`. -/
def blockSolid : SolidExpr :=
  .cut (.cut (.baseBox ⟨50, 20, 10, false, false⟩) (.box ⟨20, 20, 5, 10, 10, 15 / 2⟩))
    (.cyl ⟨"XY", 30, 0, 3, 20⟩)

/-- A drawing spec with one view "A" and one dimension referring to the
unknown view "B". -/
def c1drawing : DrawingSpec :=
  ⟨"T", "tmpl", [⟨"A", (0, 0, 1), false, none, none⟩], [⟨"B", "linear", "L", ["Edge1"]⟩]⟩

/-- A drawing spec with one view "Main" and one dimension referring to
the unknown view "Ghost". -/
def c7drawing : DrawingSpec :=
  ⟨"C7", "tmpl", [⟨"Main", (0, 0, 1), false, none, none⟩], [⟨"Ghost", "linear", "L", []⟩]⟩

/-- A drawing spec exercising the dimension-kind mapping with an
upper-case distance kind, a mixed-case diameter kind and an unknown
kind. -/
def kindsDrawing : DrawingSpec :=
  ⟨"K", "tmpl", [⟨"V", (0, 0, 1), false, none, none⟩],
   [⟨"V", "LINEAR", "D1", ["Edge1"]⟩, ⟨"V", "Radius", "D2", ["Edge2"]⟩,
    ⟨"V", "weird", "D3", []⟩]⟩

end ScanMaster

namespace ScanMaster

/-! ## Lemmas about the classification pass -/

theorem classifyStep_ok (b : Buckets) (op : Operation) (b1 : Buckets)
    (h : classifyStep b op = .ok b1) :
    b1.sketch_circles = b.sketch_circles ++ (circleOf op).toList ∧
    b1.cut_boxes = b.cut_boxes ++ (cutBoxOf op).toList ∧
    b1.through_holes = b.through_holes ++ (throughHoleOf op).toList ∧
    b1.extrude_op.toList = b.extrude_op.toList ++ (extrudeOf op).toList ∧
    b1.base_box.toList = b.base_box.toList ++ (baseBoxOf op).toList ∧
    validOp op = true := by
  cases op with
  | sketchCircle sc =>
      simp only [classifyStep] at h
      split at h
      · exact Except.noConfusion h
      next hpos =>
        cases h
        refine ⟨by simp [circleOf], by simp [cutBoxOf], by simp [throughHoleOf],
          by simp [extrudeOf], by simp [baseBoxOf], ?_⟩
        simp only [validOp, decide_eq_true_eq]
        exact not_le.mp hpos
  | extrude e =>
      simp only [classifyStep] at h
      split at h
      · exact Except.noConfusion h
      next hext =>
        split at h
        · exact Except.noConfusion h
        next hpos =>
          cases h
          refine ⟨by simp [circleOf], by simp [cutBoxOf], by simp [throughHoleOf],
            by simp [extrudeOf, hext], by simp [baseBoxOf], ?_⟩
          simp only [validOp, decide_eq_true_eq]
          exact not_le.mp hpos
  | baseBox bb =>
      simp only [classifyStep] at h
      split at h
      · exact Except.noConfusion h
      next hbb =>
        split at h
        · exact Except.noConfusion h
        next hpos =>
          cases h
          push_neg at hpos
          refine ⟨by simp [circleOf], by simp [cutBoxOf], by simp [throughHoleOf],
            by simp [extrudeOf], by simp [baseBoxOf, hbb], ?_⟩
          simp only [validOp, decide_eq_true_eq]
          exact ⟨hpos.1, hpos.2.1, hpos.2.2⟩
  | cutBox cb =>
      simp only [classifyStep] at h
      split at h
      · exact Except.noConfusion h
      next hpos =>
        cases h
        push_neg at hpos
        refine ⟨by simp [circleOf], by simp [cutBoxOf], by simp [throughHoleOf],
          by simp [extrudeOf], by simp [baseBoxOf], ?_⟩
        simp only [validOp, decide_eq_true_eq]
        exact ⟨hpos.1, hpos.2.1, hpos.2.2⟩
  | throughHole th =>
      simp only [classifyStep] at h
      split at h
      · exact Except.noConfusion h
      next hpos =>
        split at h
        · exact Except.noConfusion h
        next haxis =>
          cases h
          push_neg at hpos
          refine ⟨by simp [circleOf], by simp [cutBoxOf], by simp [throughHoleOf],
            by simp [extrudeOf], by simp [baseBoxOf], ?_⟩
          simp only [validOp, decide_eq_true_eq]
          exact ⟨hpos.1, hpos.2, of_not_not haxis⟩

theorem classifyFrom_ok_spec :
    ∀ (ops : List Operation) (b b2 : Buckets), classifyFrom b ops = .ok b2 →
      b2.sketch_circles = b.sketch_circles ++ ops.filterMap circleOf ∧
      b2.cut_boxes = b.cut_boxes ++ ops.filterMap cutBoxOf ∧
      b2.through_holes = b.through_holes ++ ops.filterMap throughHoleOf ∧
      b2.extrude_op.toList = b.extrude_op.toList ++ ops.filterMap extrudeOf ∧
      b2.base_box.toList = b.base_box.toList ++ ops.filterMap baseBoxOf ∧
      ∀ op ∈ ops, validOp op = true := by
  intro ops
  induction ops with
  | nil =>
      intro b b2 h
      simp only [classifyFrom] at h
      cases h
      simp
  | cons op ops ih =>
      intro b b2 h
      simp only [classifyFrom] at h
      cases hs : classifyStep b op with
      | error e => rw [hs] at h; exact Except.noConfusion h
      | ok b1 =>
          rw [hs] at h
          obtain ⟨g1, g2, g3, g4, g5, g6⟩ := classifyStep_ok b op b1 hs
          obtain ⟨h1, h2, h3, h4, h5, h6⟩ := ih b1 b2 h
          have fc : ∀ {α : Type} (f : Operation → Option α),
              (op :: ops).filterMap f = (f op).toList ++ ops.filterMap f := by
            intro α f
            cases hf : f op <;> simp [List.filterMap_cons, hf]
          refine ⟨?_, ?_, ?_, ?_, ?_, ?_⟩
          · rw [h1, g1, fc circleOf, List.append_assoc]
          · rw [h2, g2, fc cutBoxOf, List.append_assoc]
          · rw [h3, g3, fc throughHoleOf, List.append_assoc]
          · rw [h4, g4, fc extrudeOf, List.append_assoc]
          · rw [h5, g5, fc baseBoxOf, List.append_assoc]
          · intro op2 hmem
            rcases List.mem_cons.mp hmem with rfl | hmem2
            · exact g6
            · exact h6 op2 hmem2

theorem classify_ok_spec (ops : List Operation) (b : Buckets) (h : classify ops = .ok b) :
    b.sketch_circles = ops.filterMap circleOf ∧
    b.cut_boxes = ops.filterMap cutBoxOf ∧
    b.through_holes = ops.filterMap throughHoleOf ∧
    b.extrude_op.toList = ops.filterMap extrudeOf ∧
    b.base_box.toList = ops.filterMap baseBoxOf ∧
    ∀ op ∈ ops, validOp op = true := by
  have h2 := classifyFrom_ok_spec ops emptyBuckets b h
  simpa [emptyBuckets] using h2


/-! ## Lemmas about `buildSolid` -/

theorem buildSolid_of_empty (spec : SolidSpec) (h : spec.operations = []) :
    buildSolid spec = ([], .error .emptySpec) := by
  simp only [buildSolid, if_pos h]

theorem buildSolid_of_classify_error (spec : SolidSpec) (e : GeomErr)
    (h1 : spec.operations ≠ []) (h2 : classify spec.operations = .error e) :
    buildSolid spec = ([], .error e) := by
  simp only [buildSolid, if_neg h1, h2]

theorem buildSolid_of_mixed (spec : SolidSpec) (b : Buckets) (bb : BaseBox)
    (h1 : spec.operations ≠ []) (h2 : classify spec.operations = .ok b)
    (h3 : b.base_box = some bb) (h4 : b.sketch_circles ≠ [] ∨ b.extrude_op ≠ none) :
    buildSolid spec = ([], .error .mixedBaseStyle) := by
  simp only [buildSolid, if_neg h1, h2, h3, if_pos h4]

theorem buildSolid_of_boxStyle (spec : SolidSpec) (b : Buckets) (bb : BaseBox)
    (h1 : spec.operations ≠ []) (h2 : classify spec.operations = .ok b)
    (h3 : b.base_box = some bb) (h4 : b.sketch_circles = []) (h5 : b.extrude_op = none) :
    buildSolid spec = (boxBaseCalls bb ++ modifierCalls b, .ok (modifierSolid b (.baseBox bb))) := by
  have h6 : ¬(b.sketch_circles ≠ [] ∨ b.extrude_op ≠ none) := by
    push_neg
    exact ⟨h4, h5⟩
  simp only [buildSolid, if_neg h1, h2, h3, if_neg h6]

theorem buildSolid_of_noBase (spec : SolidSpec) (b : Buckets)
    (h1 : spec.operations ≠ []) (h2 : classify spec.operations = .ok b)
    (h3 : b.base_box = none) (h4 : b.extrude_op = none) :
    buildSolid spec = ([], .error .noBaseStyle) := by
  simp only [buildSolid, if_neg h1, h2, h3, h4]

theorem buildSolid_of_noPositive (spec : SolidSpec) (b : Buckets) (ex : Extrude)
    (h1 : spec.operations ≠ []) (h2 : classify spec.operations = .ok b)
    (h3 : b.base_box = none) (h4 : b.extrude_op = some ex)
    (h5 : nonHoleCircles b = []) :
    buildSolid spec = ([KernelCall.workplane "XY"], .error .noPositiveGeometry) := by
  simp only [buildSolid, if_neg h1, h2, h3, h4, if_pos h5]

theorem buildSolid_of_sketchStyle (spec : SolidSpec) (b : Buckets) (ex : Extrude)
    (h1 : spec.operations ≠ []) (h2 : classify spec.operations = .ok b)
    (h3 : b.base_box = none) (h4 : b.extrude_op = some ex)
    (h5 : nonHoleCircles b ≠ []) :
    buildSolid spec =
      (sketchBaseCalls b ex ++ modifierCalls b, .ok (modifierSolid b (sketchBaseSolid b ex))) := by
  simp only [buildSolid, if_neg h1, h2, h3, h4, if_neg h5]

theorem buildSolid_ok_inv (spec : SolidSpec) (tr : List KernelCall) (s : SolidExpr)
    (h : buildSolid spec = (tr, .ok s)) :
    ∃ b, classify spec.operations = .ok b ∧
      ((∃ bb, b.base_box = some bb ∧ b.sketch_circles = [] ∧ b.extrude_op = none ∧
          tr = boxBaseCalls bb ++ modifierCalls b ∧ s = modifierSolid b (.baseBox bb)) ∨
       (∃ ex, b.base_box = none ∧ b.extrude_op = some ex ∧ nonHoleCircles b ≠ [] ∧
          tr = sketchBaseCalls b ex ++ modifierCalls b ∧
          s = modifierSolid b (sketchBaseSolid b ex))) := by
  by_cases h1 : spec.operations = []
  · rw [buildSolid_of_empty spec h1] at h
    simp at h
  · simp only [buildSolid, if_neg h1] at h
    cases hc : classify spec.operations with
    | error e => rw [hc] at h; simp at h
    | ok b =>
        rw [hc] at h
        simp only at h
        refine ⟨b, rfl, ?_⟩
        cases hbb : b.base_box with
        | some bb =>
            rw [hbb] at h
            simp only at h
            split at h
            · simp at h
            next hcond =>
              push_neg at hcond
              obtain ⟨htr, hsol⟩ := Prod.mk.injEq .. ▸ h
              exact Or.inl ⟨bb, rfl, hcond.1, hcond.2, htr.symm, (Except.ok.inj hsol).symm⟩
        | none =>
            rw [hbb] at h
            simp only at h
            cases hex : b.extrude_op with
            | none => rw [hex] at h; simp at h
            | some ex =>
                rw [hex] at h
                simp only at h
                split at h
                · simp at h
                next hnh =>
                  obtain ⟨htr, hsol⟩ := Prod.mk.injEq .. ▸ h
                  exact Or.inr ⟨ex, rfl, rfl, hnh, htr.symm, (Except.ok.inj hsol).symm⟩

theorem buildSolid_error_trace (spec : SolidSpec) (tr : List KernelCall) (e : GeomErr)
    (h : buildSolid spec = (tr, .error e)) :
    tr = [] ∨ tr = [KernelCall.workplane "XY"] := by
  by_cases h1 : spec.operations = []
  · rw [buildSolid_of_empty spec h1] at h
    exact Or.inl (congrArg Prod.fst h).symm
  · simp only [buildSolid, if_neg h1] at h
    cases hc : classify spec.operations with
    | error e2 =>
        rw [hc] at h
        exact Or.inl (congrArg Prod.fst h).symm
    | ok b =>
        rw [hc] at h
        simp only at h
        cases hbb : b.base_box with
        | some bb =>
            rw [hbb] at h
            simp only at h
            split at h
            · exact Or.inl (congrArg Prod.fst h).symm
            · simp at h
        | none =>
            rw [hbb] at h
            simp only at h
            cases hex : b.extrude_op with
            | none =>
                rw [hex] at h
                exact Or.inl (congrArg Prod.fst h).symm
            | some ex =>
                rw [hex] at h
                simp only at h
                split at h
                · exact Or.inr (congrArg Prod.fst h).symm
                · simp at h


/-! ## Lemmas about the cut trace -/

theorem filterMap_cutToolOf_map_circles (l : List SketchCircle) :
    (l.map (fun sc => KernelCall.sketchCircle sc.radius)).filterMap cutToolOf = [] := by
  induction l with
  | nil => rfl
  | cons sc l ih => simp [List.filterMap_cons, cutToolOf, ih]

theorem filterMap_cutToolOf_concatMap_cutBox (l : List CutBox) :
    (concatMap cutBoxCalls l).filterMap cutToolOf =
      l.map (fun cb => Tool.box (cutBoxTool cb)) := by
  induction l with
  | nil => rfl
  | cons cb l ih =>
      simp only [concatMap, List.filterMap_append, ih]
      simp [cutBoxCalls, List.filterMap_cons, cutToolOf]

theorem filterMap_cutToolOf_concatMap_throughHole (l : List ThroughHole) :
    (concatMap throughHoleCalls l).filterMap cutToolOf =
      l.map (fun th => Tool.cyl (holeTool th)) := by
  induction l with
  | nil => rfl
  | cons th l ih =>
      simp only [concatMap, List.filterMap_append, ih]
      simp [throughHoleCalls, List.filterMap_cons, cutToolOf]

theorem filterMap_cutToolOf_concatMap_holeCircle (len : ℚ) (l : List SketchCircle) :
    (concatMap (holeCircleCalls len) l).filterMap cutToolOf =
      l.map (fun sc => Tool.circle ⟨sc.radius, len⟩) := by
  induction l with
  | nil => rfl
  | cons sc l ih =>
      simp only [concatMap, List.filterMap_append, ih]
      simp [holeCircleCalls, List.filterMap_cons, cutToolOf]

theorem filterMap_cutToolOf_modifier (b : Buckets) :
    (modifierCalls b).filterMap cutToolOf =
      b.cut_boxes.map (fun cb => Tool.box (cutBoxTool cb)) ++
        b.through_holes.map (fun th => Tool.cyl (holeTool th)) := by
  simp [modifierCalls, List.filterMap_append, filterMap_cutToolOf_concatMap_cutBox,
    filterMap_cutToolOf_concatMap_throughHole]

theorem filterMap_cutToolOf_boxBase (bb : BaseBox) :
    (boxBaseCalls bb).filterMap cutToolOf = [] := by
  simp [boxBaseCalls, List.filterMap_cons, cutToolOf]

theorem filterMap_cutToolOf_sketchBase (b : Buckets) (ex : Extrude) :
    (sketchBaseCalls b ex).filterMap cutToolOf =
      (holeCircles b).map (fun sc => Tool.circle ⟨sc.radius, ex.length⟩) := by
  simp [sketchBaseCalls, List.filterMap_cons, List.filterMap_append, cutToolOf,
    filterMap_cutToolOf_map_circles, filterMap_cutToolOf_concatMap_holeCircle]

/-- The subtractions a successful build performs, in order: hole
circles, then cut boxes, then through holes, each in bucket order. -/
theorem buildSolid_cuts_eq (spec : SolidSpec) (tr : List KernelCall) (s : SolidExpr)
    (h : buildSolid spec = (tr, .ok s)) :
    tr.filterMap cutToolOf =
      holeCircleToolsOf spec.operations ++
        (spec.operations.filterMap cutBoxOf).map (fun cb => Tool.box (cutBoxTool cb)) ++
        (spec.operations.filterMap throughHoleOf).map (fun th => Tool.cyl (holeTool th)) := by
  obtain ⟨b, hc, hcase⟩ := buildSolid_ok_inv spec tr s h
  obtain ⟨h1, h2, h3, h4, h5, h6⟩ := classify_ok_spec spec.operations b hc
  cases hcase with
  | inl hbox =>
      obtain ⟨bb, hbb, hcirc, hex, htr, hsol⟩ := hbox
      have hext : spec.operations.filterMap extrudeOf = [] := by
        rw [← h4, hex]
        rfl
      have hhc : holeCircleToolsOf spec.operations = [] := by
        rw [holeCircleToolsOf, hext]
      rw [htr, List.filterMap_append, filterMap_cutToolOf_boxBase,
        filterMap_cutToolOf_modifier, hhc, h2, h3]
      simp
  | inr hsk =>
      obtain ⟨ex, hbb, hex, hnh, htr, hsol⟩ := hsk
      have hext : spec.operations.filterMap extrudeOf = [ex] := by
        rw [← h4, hex]
        rfl
      have hhc : holeCircleToolsOf spec.operations =
          (holeCircles b).map (fun sc => Tool.circle ⟨sc.radius, ex.length⟩) := by
        rw [holeCircleToolsOf, hext, holeCircles, h1]
      rw [htr, List.filterMap_append, filterMap_cutToolOf_sketchBase,
        filterMap_cutToolOf_modifier, hhc, h2, h3, List.append_assoc]

/-! ## Semantic lemmas about the tools -/

/-- The axis-membership test agrees with the parametric axis line. -/
theorem axisContains_iff (t : CylTool) (p : Point3)
    (hp : t.plane = "XY" ∨ t.plane = "YZ" ∨ t.plane = "XZ") :
    axisContains t p = true ↔ ∃ s : ℚ, axisPointAt t s = p := by
  obtain ⟨px, py, pz⟩ := p
  rcases hp with hp | hp | hp
  · simp only [axisContains, axisPointAt, planeNormal, planePoint, if_pos hp,
      decide_eq_true_eq, Point3.mk.injEq]
    constructor
    · rintro ⟨hx, hy⟩
      exact ⟨pz, by rw [hx]; ring, by rw [hy]; ring, by ring⟩
    · rintro ⟨s, hx, hy, hz⟩
      exact ⟨by rw [← hx]; ring, by rw [← hy]; ring⟩
  · have hne : t.plane ≠ "XY" := by rw [hp]; decide
    simp only [axisContains, axisPointAt, planeNormal, planePoint, if_neg hne, if_pos hp,
      decide_eq_true_eq, Point3.mk.injEq]
    constructor
    · rintro ⟨hy, hz⟩
      exact ⟨px, by ring, by rw [hy]; ring, by rw [hz]; ring⟩
    · rintro ⟨s, hx, hy, hz⟩
      exact ⟨by rw [← hy]; ring, by rw [← hz]; ring⟩
  · have hne : t.plane ≠ "XY" := by rw [hp]; decide
    have hne2 : t.plane ≠ "YZ" := by rw [hp]; decide
    simp only [axisContains, axisPointAt, planeNormal, planePoint, if_neg hne, if_neg hne2,
      decide_eq_true_eq, Point3.mk.injEq]
    constructor
    · rintro ⟨hx, hz⟩
      exact ⟨-py, by rw [hx]; ring, by ring, by rw [hz]; ring⟩
    · rintro ⟨s, hx, hy, hz⟩
      exact ⟨by rw [← hx]; ring, by rw [← hz]; ring⟩

/-- Axis points within the extrusion extent belong to the tool (the
axis defined above really is the cylinder's axis). -/
theorem memCyl_axisPointAt (t : CylTool) (s : ℚ)
    (hs1 : -t.extDist ≤ s) (hs2 : s ≤ t.extDist) :
    memCyl t (axisPointAt t s) = true := by
  have hsq : (0 : ℚ) ≤ t.radius ^ 2 := by positivity
  by_cases hp : t.plane = "XY"
  · simp only [memCyl, axisPointAt, planeNormal, planePoint, if_pos hp, decide_eq_true_eq]
    refine ⟨?_, ?_, ?_⟩
    · have h2 : (t.c1 + s * 0 - t.c1) ^ 2 + (t.c2 + s * 0 - t.c2) ^ 2 = 0 := by ring
      rw [h2]
      exact hsq
    · have h2 : t.c2 + s * 0 = t.c2 := by ring
      have h3 : (0 : ℚ) + s * 1 = s := by ring
      rw [h3]
      exact hs1
    · have h3 : (0 : ℚ) + s * 1 = s := by ring
      rw [h3]
      exact hs2
  · by_cases hp2 : t.plane = "YZ"
    · simp only [memCyl, axisPointAt, planeNormal, planePoint, if_neg hp, if_pos hp2,
        decide_eq_true_eq]
      refine ⟨?_, ?_, ?_⟩
      · have h2 : (t.c1 + s * 0 - t.c1) ^ 2 + (t.c2 + s * 0 - t.c2) ^ 2 = 0 := by ring
        rw [h2]
        exact hsq
      · have h3 : (0 : ℚ) + s * 1 = s := by ring
        rw [h3]
        exact hs1
      · have h3 : (0 : ℚ) + s * 1 = s := by ring
        rw [h3]
        exact hs2
    · simp only [memCyl, axisPointAt, planeNormal, planePoint, if_neg hp, if_neg hp2,
        decide_eq_true_eq]
      refine ⟨?_, ?_, ?_⟩
      · have h2 : (t.c1 + s * 0 - t.c1) ^ 2 + (t.c2 + s * 0 - t.c2) ^ 2 = 0 := by ring
        rw [h2]
        exact hsq
      · have h3 : -((0 : ℚ) + s * -1) = s := by ring
        rw [h3]
        exact hs1
      · have h3 : -((0 : ℚ) + s * -1) = s := by ring
        rw [h3]
        exact hs2

/-- The through-hole tool is symmetric under reflection through its
sketch plane. -/
theorem memCyl_axialReflect (t : CylTool) (p : Point3) :
    memCyl t (axialReflect t p) = memCyl t p := by
  obtain ⟨px, py, pz⟩ := p
  by_cases hp : t.plane = "XY"
  · simp only [memCyl, axialReflect, if_pos hp]
    rw [decide_eq_decide]
    constructor
    · rintro ⟨h1, h2, h3⟩
      exact ⟨h1, by linarith, by linarith⟩
    · rintro ⟨h1, h2, h3⟩
      exact ⟨h1, by linarith, by linarith⟩
  · by_cases hp2 : t.plane = "YZ"
    · simp only [memCyl, axialReflect, if_neg hp, if_pos hp2]
      rw [decide_eq_decide]
      constructor
      · rintro ⟨h1, h2, h3⟩
        exact ⟨h1, by linarith, by linarith⟩
      · rintro ⟨h1, h2, h3⟩
        exact ⟨h1, by linarith, by linarith⟩
    · simp only [memCyl, axialReflect, if_neg hp, if_neg hp2]
      rw [decide_eq_decide]
      constructor
      · rintro ⟨h1, h2, h3⟩
        exact ⟨h1, by linarith, by linarith⟩
      · rintro ⟨h1, h2, h3⟩
        exact ⟨h1, by linarith, by linarith⟩

/-- The cut-box tool is point-symmetric about the cut box's center. -/
theorem memBoxTool_center_symm (cb : CutBox) (p : Point3) :
    memBoxTool (cutBoxTool cb)
        ⟨2 * cb.center.x - p.x, 2 * cb.center.y - p.y, 2 * cb.center.z - p.z⟩ =
      memBoxTool (cutBoxTool cb) p := by
  have key : ∀ c x s : ℚ, inExtentB true s (2 * c - x - c) = inExtentB true s (x - c) := by
    intro c x s
    have hx : 2 * c - x - c = -(x - c) := by ring
    show decide (2 * |2 * c - x - c| ≤ s) = decide (2 * |x - c| ≤ s)
    rw [hx, abs_neg]
  simp only [memBoxTool, cutBoxTool]
  rw [key, key, key]


/-! ## Lemmas about the dimension pass and `generateDrawing` -/

theorem dimensionPass_all_found (ids : List String) :
    ∀ dims : List DimensionSpec, (∀ d ∈ dims, d.view_id ∈ ids) →
      dimensionPass ids dims =
        (dims.map (fun d => DocCall.addDimension d.view_id (techDrawType d.kind) d.edges d.label),
         none) := by
  intro dims
  induction dims with
  | nil => intro _; rfl
  | cons d dims ih =>
      intro h
      have hd : d.view_id ∈ ids := h d (List.mem_cons_self d dims)
      have hrest := ih (fun d2 hd2 => h d2 (List.mem_cons_of_mem d hd2))
      simp [dimensionPass, if_pos hd, hrest]

theorem dimensionPass_dangling (ids : List String) :
    ∀ dims : List DimensionSpec, (∃ d ∈ dims, d.view_id ∉ ids) →
      ∃ v, (dimensionPass ids dims).2 = some v ∧ v ∉ ids := by
  intro dims
  induction dims with
  | nil => rintro ⟨d, hd, _⟩; cases hd
  | cons d dims ih =>
      rintro ⟨d2, hd2, hv⟩
      by_cases hd : d.view_id ∈ ids
      · rcases List.mem_cons.mp hd2 with rfl | hmem
        · exact absurd hd hv
        · obtain ⟨v, hv1, hv2⟩ := ih ⟨d2, hmem, hv⟩
          refine ⟨v, ?_, hv2⟩
          simp [dimensionPass, if_pos hd, hv1]
      · refine ⟨d.view_id, ?_, hd⟩
        simp [dimensionPass, if_neg hd]

theorem dimensionPass_no_exports (ids : List String) :
    ∀ dims : List DimensionSpec, ∀ c ∈ (dimensionPass ids dims).1, isExport c = false := by
  intro dims
  induction dims with
  | nil => intro c hc; cases hc
  | cons d dims ih =>
      intro c hc
      by_cases hd : d.view_id ∈ ids
      · simp only [dimensionPass, if_pos hd, List.mem_cons] at hc
        rcases hc with rfl | hc
        · rfl
        · exact ih c hc
      · simp only [dimensionPass, if_neg hd] at hc
        cases hc

theorem preCalls_no_exports (ds : DrawingSpec) :
    ∀ c ∈ preCalls ds, isExport c = false := by
  intro c hc
  simp only [preCalls, List.mem_append, List.mem_cons, List.mem_map,
    List.mem_singleton, List.not_mem_nil, or_false] at hc
  rcases hc with ((rfl | rfl | rfl | rfl | rfl) | ⟨v, hv, rfl⟩) | rfl <;> rfl

theorem generateDrawing_of_dangling (ds : DrawingSpec) (output_pdf : String)
    (output_svg : Option String) (v : String)
    (h : (dimensionPass (viewIds ds) ds.dimensions).2 = some v) :
    generateDrawing ds output_pdf output_svg =
      (preCalls ds ++ (dimensionPass (viewIds ds) ds.dimensions).1,
       some (.unknownViewReference v)) := by
  simp only [generateDrawing]
  rw [show dimensionPass (viewIds ds) ds.dimensions =
    ((dimensionPass (viewIds ds) ds.dimensions).1, some v) from Prod.ext rfl h]

theorem generateDrawing_of_found (ds : DrawingSpec) (output_pdf : String)
    (output_svg : Option String)
    (h : (dimensionPass (viewIds ds) ds.dimensions).2 = none) :
    generateDrawing ds output_pdf output_svg =
      (preCalls ds ++ (dimensionPass (viewIds ds) ds.dimensions).1
        ++ [DocCall.recomputeDoc, DocCall.exportPdf output_pdf]
        ++ (match output_svg with
            | some p => [DocCall.exportSvg p]
            | none => []),
       none) := by
  simp only [generateDrawing]
  rw [show dimensionPass (viewIds ds) ds.dimensions =
    ((dimensionPass (viewIds ds) ds.dimensions).1, none) from Prod.ext rfl h]


/-! ## Claim theorems -/

/-- C10: a SolidSpec whose operations list is empty fails immediately
with the dedicated "contains no operations" error, with no kernel call
made (the trace is empty, so the failure precedes classification and
construction), and that error is distinct from the NoBaseStyle error. -/
theorem buildSolid_empty_operations (spec : SolidSpec) (h : spec.operations = []) :
    buildSolid spec = ([], .error .emptySpec) ∧ GeomErr.emptySpec ≠ GeomErr.noBaseStyle :=
  ⟨buildSolid_of_empty spec h, by decide⟩

/-- Witness for C10 at a concrete empty spec. -/
theorem buildSolid_empty_operations_witness :
    buildSolid ⟨"w10", []⟩ = ([], .error .emptySpec) ∧
      GeomErr.emptySpec ≠ GeomErr.noBaseStyle :=
  buildSolid_empty_operations ⟨"w10", []⟩ rfl

/-- C5: a second Extrude or a second BaseBox, or any per-operation
numeric constraint violation (non-positive radius, length, width,
depth or height, or an axis outside {x, y, z}), makes `buildSolid`
fail with an empty kernel-call trace: the failure happens at
classification time, before any base construction. -/
theorem buildSolid_classification_failures (spec : SolidSpec)
    (h : 2 ≤ (spec.operations.filterMap extrudeOf).length ∨
         2 ≤ (spec.operations.filterMap baseBoxOf).length ∨
         ∃ op ∈ spec.operations, validOp op = false) :
    (buildSolid spec).1 = [] ∧ ∃ e, (buildSolid spec).2 = .error e := by
  by_cases h1 : spec.operations = []
  · rw [buildSolid_of_empty spec h1]
    exact ⟨rfl, ⟨.emptySpec, rfl⟩⟩
  · cases hc : classify spec.operations with
    | error e =>
        rw [buildSolid_of_classify_error spec e h1 hc]
        exact ⟨rfl, ⟨e, rfl⟩⟩
    | ok b =>
        exfalso
        obtain ⟨g1, g2, g3, g4, g5, g6⟩ := classify_ok_spec spec.operations b hc
        rcases h with h | h | h
        · have hle : (spec.operations.filterMap extrudeOf).length ≤ 1 := by
            rw [← g4]
            cases b.extrude_op <;> simp
          omega
        · have hle : (spec.operations.filterMap baseBoxOf).length ≤ 1 := by
            rw [← g5]
            cases b.base_box <;> simp
          omega
        · obtain ⟨op, hop, hbad⟩ := h
          have h2 := g6 op hop
          rw [hbad] at h2
          exact Bool.noConfusion h2

/-- Witness for C5 at a spec with two Extrude operations. -/
theorem buildSolid_classification_failures_witness :
    (buildSolid dupExtrudeSpec).1 = [] ∧ ∃ e, (buildSolid dupExtrudeSpec).2 = .error e :=
  buildSolid_classification_failures dupExtrudeSpec (Or.inl (by with_unfolding_all decide))

/-- C4 counterexample: `c4spec` contains a BaseBox together with a
SketchCircle, yet `buildSolid` fails with the circle's parameter error
from the classification pass, not with MixedBaseStyle. -/
theorem mixed_base_style_error_priority_cex :
    (buildSolid c4spec).2 = .error .badCircleRadius ∧
      GeomErr.badCircleRadius ≠ GeomErr.mixedBaseStyle := by
  with_unfolding_all decide

/-- C4 (amended): a spec mixing a BaseBox with a SketchCircle or an
Extrude always fails, and fails with MixedBaseStyle whenever the
classification pass itself succeeds; a spec containing neither a
BaseBox nor an Extrude always fails, and fails with NoBaseStyle
whenever it is non-empty and the classification pass succeeds (the
empty list fails with its dedicated error, and per-operation or
duplicate-cardinality violations fail with the classification error
first). -/
theorem buildSolid_base_style_rules :
    (∀ spec : SolidSpec,
        (∃ op ∈ spec.operations, (baseBoxOf op).isSome = true) →
        ((∃ op ∈ spec.operations, (circleOf op).isSome = true) ∨
          ∃ op ∈ spec.operations, (extrudeOf op).isSome = true) →
        ((∃ e, (buildSolid spec).2 = .error e) ∧
          ∀ b, classify spec.operations = .ok b →
            (buildSolid spec).2 = .error .mixedBaseStyle)) ∧
    (∀ spec : SolidSpec,
        (∀ op ∈ spec.operations, baseBoxOf op = none) →
        (∀ op ∈ spec.operations, extrudeOf op = none) →
        ((∃ e, (buildSolid spec).2 = .error e) ∧
          ∀ b, spec.operations ≠ [] → classify spec.operations = .ok b →
            (buildSolid spec).2 = .error .noBaseStyle)) := by
  constructor
  · intro spec h1 h2
    have hne : spec.operations ≠ [] := by
      obtain ⟨op, hop, _⟩ := h1
      intro he
      rw [he] at hop
      cases hop
    have hmix : ∀ b, classify spec.operations = .ok b →
        (buildSolid spec).2 = .error .mixedBaseStyle := by
      intro b hc
      obtain ⟨g1, g2, g3, g4, g5, g6⟩ := classify_ok_spec spec.operations b hc
      obtain ⟨op, hop, hsome⟩ := h1
      obtain ⟨bb0, hbb0⟩ := Option.isSome_iff_exists.mp hsome
      have hmem : bb0 ∈ b.base_box.toList := by
        rw [g5]
        exact List.mem_filterMap.mpr ⟨op, hop, hbb0⟩
      obtain ⟨bb, hbb⟩ : ∃ bb, b.base_box = some bb := by
        cases hb2 : b.base_box with
        | none => rw [hb2] at hmem; cases hmem
        | some bb => exact ⟨bb, rfl⟩
      have hcond : b.sketch_circles ≠ [] ∨ b.extrude_op ≠ none := by
        rcases h2 with ⟨op2, hop2, hsome2⟩ | ⟨op2, hop2, hsome2⟩
        · left
          obtain ⟨sc, hsc⟩ := Option.isSome_iff_exists.mp hsome2
          intro hnil
          have hmem2 : sc ∈ spec.operations.filterMap circleOf :=
            List.mem_filterMap.mpr ⟨op2, hop2, hsc⟩
          rw [← g1, hnil] at hmem2
          cases hmem2
        · right
          obtain ⟨ex, hex⟩ := Option.isSome_iff_exists.mp hsome2
          have hmem2 : ex ∈ b.extrude_op.toList := by
            rw [g4]
            exact List.mem_filterMap.mpr ⟨op2, hop2, hex⟩
          intro hnone
          rw [hnone] at hmem2
          cases hmem2
      rw [buildSolid_of_mixed spec b bb hne hc hbb hcond]
    refine ⟨?_, hmix⟩
    cases hc : classify spec.operations with
    | error e =>
        rw [buildSolid_of_classify_error spec e hne hc]
        exact ⟨e, rfl⟩
    | ok b => exact ⟨.mixedBaseStyle, hmix b hc⟩
  · intro spec h1 h2
    have hnb : ∀ b, spec.operations ≠ [] → classify spec.operations = .ok b →
        (buildSolid spec).2 = .error .noBaseStyle := by
      intro b hne hc
      obtain ⟨g1, g2, g3, g4, g5, g6⟩ := classify_ok_spec spec.operations b hc
      have hb : b.base_box = none := by
        have hnil : b.base_box.toList = [] := by
          rw [g5, List.filterMap_eq_nil_iff]
          exact h1
        cases hb2 : b.base_box with
        | none => rfl
        | some bb => rw [hb2] at hnil; cases hnil
      have hex : b.extrude_op = none := by
        have hnil : b.extrude_op.toList = [] := by
          rw [g4, List.filterMap_eq_nil_iff]
          exact h2
        cases hb2 : b.extrude_op with
        | none => rfl
        | some ex => rw [hb2] at hnil; cases hnil
      rw [buildSolid_of_noBase spec b hne hc hb hex]
    refine ⟨?_, hnb⟩
    by_cases hne : spec.operations = []
    · rw [buildSolid_of_empty spec hne]
      exact ⟨.emptySpec, rfl⟩
    · cases hc : classify spec.operations with
      | error e =>
          rw [buildSolid_of_classify_error spec e hne hc]
          exact ⟨e, rfl⟩
      | ok b => exact ⟨.noBaseStyle, hnb b hne hc⟩

/-- Witness for C4 at a BaseBox+Extrude spec and a circle-only spec. -/
theorem buildSolid_base_style_rules_witness :
    (buildSolid mixedSpec).2 = .error .mixedBaseStyle ∧
      (buildSolid noBaseSpec).2 = .error .noBaseStyle := by
  constructor
  · exact (buildSolid_base_style_rules.1 mixedSpec
      ⟨.baseBox ⟨1, 1, 1, true, false⟩, by with_unfolding_all decide⟩
      (Or.inr ⟨.extrude ⟨1⟩, by with_unfolding_all decide⟩)).2
      ⟨[], some ⟨1⟩, some ⟨1, 1, 1, true, false⟩, [], []⟩ (by with_unfolding_all decide)
  · exact (buildSolid_base_style_rules.2 noBaseSpec
      (by with_unfolding_all decide) (by with_unfolding_all decide)).2
      ⟨[⟨1, false⟩], none, none, [], []⟩ (by with_unfolding_all decide)
      (by with_unfolding_all decide)

/-- C6 counterexample: a spec with an Extrude present, no BaseBox and
no non-hole circle (it has no circles at all, and a second Extrude)
fails with DuplicateExtrude, not with NoPositiveGeometry. -/
theorem no_positive_geometry_error_priority_cex :
    (buildSolid dupExtrudeSpec).2 = .error .duplicateExtrude ∧
      GeomErr.duplicateExtrude ≠ GeomErr.noPositiveGeometry := by
  with_unfolding_all decide

/-- C6 (amended): a sketch-style spec (no BaseBox, an Extrude present)
in which every circle has `is_hole = true` fails with
NoPositiveGeometry, provided the classification pass succeeds; the
only kernel call made before the failure is creating the workplane, so
nothing is extruded. -/
theorem buildSolid_no_positive_geometry (spec : SolidSpec) (b : Buckets)
    (hcl : classify spec.operations = .ok b)
    (hbb : ∀ op ∈ spec.operations, baseBoxOf op = none)
    (hex : ∃ op ∈ spec.operations, (extrudeOf op).isSome = true)
    (hh : ∀ op ∈ spec.operations, ∀ sc, circleOf op = some sc → sc.is_hole = true) :
    buildSolid spec = ([KernelCall.workplane "XY"], .error .noPositiveGeometry) := by
  obtain ⟨g1, g2, g3, g4, g5, g6⟩ := classify_ok_spec spec.operations b hcl
  have hne : spec.operations ≠ [] := by
    obtain ⟨op, hop, _⟩ := hex
    intro he
    rw [he] at hop
    cases hop
  have hb : b.base_box = none := by
    have hnil : b.base_box.toList = [] := by
      rw [g5, List.filterMap_eq_nil_iff]
      exact hbb
    cases hb2 : b.base_box with
    | none => rfl
    | some bb => rw [hb2] at hnil; cases hnil
  obtain ⟨ex, hexx⟩ : ∃ ex, b.extrude_op = some ex := by
    obtain ⟨op, hop, hsome⟩ := hex
    obtain ⟨ex, hx⟩ := Option.isSome_iff_exists.mp hsome
    have hmem : ex ∈ b.extrude_op.toList := by
      rw [g4]
      exact List.mem_filterMap.mpr ⟨op, hop, hx⟩
    cases hb2 : b.extrude_op with
    | none => rw [hb2] at hmem; cases hmem
    | some ex2 => exact ⟨ex2, rfl⟩
  have hnh : nonHoleCircles b = [] := by
    rw [nonHoleCircles, List.filter_eq_nil_iff]
    intro sc hsc
    rw [g1] at hsc
    obtain ⟨op, hop, hco⟩ := List.mem_filterMap.mp hsc
    rw [hh op hop sc hco]
    decide
  exact buildSolid_of_noPositive spec b ex hne hcl hb hexx hnh

/-- Witness for C6 at a spec whose only circle is a hole. -/
theorem buildSolid_no_positive_geometry_witness :
    buildSolid w6spec = ([KernelCall.workplane "XY"], .error .noPositiveGeometry) := by
  refine buildSolid_no_positive_geometry w6spec w6buckets (by with_unfolding_all decide)
    (by with_unfolding_all decide) ⟨.extrude ⟨2⟩, by with_unfolding_all decide⟩ ?_
  intro op hop sc hsc
  fin_cases hop
  · simp only [circleOf] at hsc
    rw [← Option.some.inj hsc]
  · exact Option.noConfusion hsc


/-- C7: whenever some DimensionSpec's view_id matches no ViewSpec id,
`generate_drawing` fails with UnknownViewReference (carrying a dangling
id) and its call trace contains no PDF or SVG export, so no partial
document is exported. -/
theorem generateDrawing_unknown_view_reference (ds : DrawingSpec) (pdf : String)
    (svg : Option String) (h : ∃ d ∈ ds.dimensions, d.view_id ∉ viewIds ds) :
    (∃ v, v ∉ viewIds ds ∧
      (generateDrawing ds pdf svg).2 = some (.unknownViewReference v)) ∧
    ∀ c ∈ (generateDrawing ds pdf svg).1, isExport c = false := by
  obtain ⟨v, hv1, hv2⟩ := dimensionPass_dangling (viewIds ds) ds.dimensions h
  rw [generateDrawing_of_dangling ds pdf svg v hv1]
  refine ⟨⟨v, hv2, rfl⟩, ?_⟩
  intro c hc
  rcases List.mem_append.mp hc with hc | hc
  · exact preCalls_no_exports ds c hc
  · exact dimensionPass_no_exports (viewIds ds) ds.dimensions c hc

/-- Witness for C7 at a drawing whose dimension names an unknown view. -/
theorem generateDrawing_unknown_view_reference_witness :
    isExport DocCall.addBody = false ∧
      ∃ v, v ∉ viewIds c7drawing ∧
        (generateDrawing c7drawing "o.pdf" none).2 = some (.unknownViewReference v) := by
  have h := generateDrawing_unknown_view_reference c7drawing "o.pdf" none
    ⟨⟨"Ghost", "linear", "L", []⟩, by with_unfolding_all decide, by with_unfolding_all decide⟩
  exact ⟨h.2 DocCall.addBody (by with_unfolding_all decide), h.1⟩

/-- C9: when every dimension resolves, `generate_drawing` raises no
error and emits, for each DimensionSpec in order, one dimension
annotation whose type is mapped case-insensitively from `kind`: any
casing of linear/distance gives "Distance", any casing of
diameter/radial/radius gives "Diameter", and any other string is
passed through verbatim. -/
theorem generateDrawing_kind_mapping (ds : DrawingSpec) (pdf : String) (svg : Option String)
    (h : ∀ d ∈ ds.dimensions, d.view_id ∈ viewIds ds) :
    (generateDrawing ds pdf svg).2 = none ∧
    ∀ d ∈ ds.dimensions,
      DocCall.addDimension d.view_id (techDrawType d.kind) d.edges d.label ∈
          (generateDrawing ds pdf svg).1 ∧
      ((d.kind.toLower = "linear" ∨ d.kind.toLower = "distance") →
        techDrawType d.kind = "Distance") ∧
      ((d.kind.toLower = "diameter" ∨ d.kind.toLower = "radial" ∨
          d.kind.toLower = "radius") → techDrawType d.kind = "Diameter") ∧
      ((d.kind.toLower ≠ "linear" ∧ d.kind.toLower ≠ "distance" ∧
          d.kind.toLower ≠ "diameter" ∧ d.kind.toLower ≠ "radial" ∧
          d.kind.toLower ≠ "radius") → techDrawType d.kind = d.kind) := by
  have hdp := dimensionPass_all_found (viewIds ds) ds.dimensions h
  have hnone : (dimensionPass (viewIds ds) ds.dimensions).2 = none := by rw [hdp]
  rw [generateDrawing_of_found ds pdf svg hnone]
  refine ⟨rfl, ?_⟩
  intro d hd
  refine ⟨?_, ?_, ?_, ?_⟩
  · have hmem : DocCall.addDimension d.view_id (techDrawType d.kind) d.edges d.label ∈
        (dimensionPass (viewIds ds) ds.dimensions).1 := by
      rw [hdp]
      exact List.mem_map.mpr ⟨d, hd, rfl⟩
    simp only [List.mem_append]
    exact Or.inl (Or.inl (Or.inr hmem))
  · intro hk
    rcases hk with hk | hk <;> simp [techDrawType, hk]
  · intro hk
    have hne : ¬(d.kind.toLower = "linear" ∨ d.kind.toLower = "distance") := by
      rcases hk with hk | hk | hk <;> rw [hk] <;> decide
    rcases hk with hk | hk | hk <;> simp [techDrawType, hne, hk]
  · rintro ⟨h1, h2, h3, h4, h5⟩
    have hne : ¬(d.kind.toLower = "linear" ∨ d.kind.toLower = "distance") := by
      rintro (hk | hk)
      · exact h1 hk
      · exact h2 hk
    have hne2 : ¬(d.kind.toLower = "diameter" ∨ d.kind.toLower = "radial" ∨
        d.kind.toLower = "radius") := by
      rintro (hk | hk | hk)
      · exact h3 hk
      · exact h4 hk
      · exact h5 hk
    simp [techDrawType, hne, hne2]

/-- Witness for C9 at a drawing with kinds "LINEAR", "Radius", "weird". -/
theorem generateDrawing_kind_mapping_witness :
    (generateDrawing kindsDrawing "o.pdf" none).2 = none ∧
      DocCall.addDimension "V" "Distance" ["Edge1"] "D1" ∈
        (generateDrawing kindsDrawing "o.pdf" none).1 := by
  have h := generateDrawing_kind_mapping kindsDrawing "o.pdf" none
    (by with_unfolding_all decide)
  refine ⟨h.1, ?_⟩
  have h2 := (h.2 ⟨"V", "LINEAR", "D1", ["Edge1"]⟩ (by with_unfolding_all decide)).1
  have h3 : techDrawType "LINEAR" = "Distance" := by with_unfolding_all decide
  rw [h3] at h2
  exact h2

/-- C1 counterexample: for a drawing whose dimension references an
unknown view, the failure is raised only after document-mutating
external calls (creating the part body, page, template and views), so
the dangling-reference validation failure is not detected before every
document-mutating external-service call. -/
theorem generateDrawing_mutates_before_validation_cex :
    (generateDrawing c1drawing "out.pdf" none).2 = some (.unknownViewReference "B") ∧
      (generateDrawing c1drawing "out.pdf" none).1.any mutatesDocument = true := by
  with_unfolding_all decide

/-- C1 (amended): every `buildSolid` validation failure happens before
any solid is constructed or mutated (the trace of a failing run
contains no extrusion, box or cut call), and a dangling
dimension-view reference makes `generateDrawing` fail with
UnknownViewReference before any export call, so no artifact is
exported — although document-mutating calls do precede that failure. -/
theorem validation_failure_isolation :
    (∀ (spec : SolidSpec) (tr : List KernelCall) (e : GeomErr),
        buildSolid spec = (tr, .error e) → ∀ c ∈ tr, constructsSolid c = false) ∧
    (∀ (ds : DrawingSpec) (pdf : String) (svg : Option String),
        (∃ d ∈ ds.dimensions, d.view_id ∉ viewIds ds) →
        (∃ v, (generateDrawing ds pdf svg).2 = some (.unknownViewReference v)) ∧
        ∀ c ∈ (generateDrawing ds pdf svg).1, isExport c = false) := by
  constructor
  · intro spec tr e h c hc
    rcases buildSolid_error_trace spec tr e h with rfl | rfl
    · cases hc
    · rcases List.mem_singleton.mp hc with rfl
      rfl
  · intro ds pdf svg h
    obtain ⟨v, hv1, hv2⟩ := dimensionPass_dangling (viewIds ds) ds.dimensions h
    rw [generateDrawing_of_dangling ds pdf svg v hv1]
    refine ⟨⟨v, rfl⟩, ?_⟩
    intro c hc
    rcases List.mem_append.mp hc with hc | hc
    · exact preCalls_no_exports ds c hc
    · exact dimensionPass_no_exports (viewIds ds) ds.dimensions c hc

/-- Witness for C1: a `buildSolid` validation failure with a non-empty
trace whose single call constructs nothing, and an export-free failing
`generateDrawing` run. -/
theorem validation_failure_isolation_witness :
    constructsSolid (KernelCall.workplane "XY") = false ∧
      isExport DocCall.addBody = false := by
  constructor
  · exact validation_failure_isolation.1 allHolesSpec (buildSolid allHolesSpec).1
      .noPositiveGeometry (by with_unfolding_all rfl) (KernelCall.workplane "XY")
      (by with_unfolding_all decide)
  · exact (validation_failure_isolation.2 c1drawing "out.pdf" none
      ⟨⟨"B", "linear", "L", ["Edge1"]⟩, by with_unfolding_all decide,
        by with_unfolding_all decide⟩).2 DocCall.addBody (by with_unfolding_all decide)


/-- C8: for every spec on which the build succeeds, the boolean
subtractions happen in a fixed deterministic order — each
`is_hole=true` circle in operation-list order, then every CutBox in
operation-list order (each an axis-aligned box tool point-symmetric
about its given 3-D center), then every ThroughHole in operation-list
order. -/
theorem buildSolid_cut_order (spec : SolidSpec) (tr : List KernelCall) (s : SolidExpr)
    (hb : buildSolid spec = (tr, .ok s)) :
    tr.filterMap cutToolOf =
      holeCircleToolsOf spec.operations ++
        (spec.operations.filterMap cutBoxOf).map (fun cb => Tool.box (cutBoxTool cb)) ++
        (spec.operations.filterMap throughHoleOf).map (fun th => Tool.cyl (holeTool th)) ∧
    ∀ cb ∈ spec.operations.filterMap cutBoxOf, ∀ p : Point3,
      memTool (Tool.box (cutBoxTool cb))
          ⟨2 * cb.center.x - p.x, 2 * cb.center.y - p.y, 2 * cb.center.z - p.z⟩ =
        memTool (Tool.box (cutBoxTool cb)) p := by
  refine ⟨buildSolid_cuts_eq spec tr s hb, ?_⟩
  intro cb hcb p
  exact memBoxTool_center_symm cb p

/-- Witness for C8 at the calibration-block spec from the test file. -/
theorem buildSolid_cut_order_witness :
    (buildSolid blockSpec).1.filterMap cutToolOf =
      [Tool.box ⟨20, 20, 5, 10, 10, 15 / 2⟩, Tool.cyl ⟨"XY", 30, 0, 3, 20⟩] := by
  have h := buildSolid_cut_order blockSpec (buildSolid blockSpec).1 blockSolid
    (by with_unfolding_all rfl)
  rw [h.1]
  with_unfolding_all decide

/-- C3 counterexample: for `c3spec` (z-axis hole of depth 1 centered
at (0, 0, 5) through a box spanning z ∈ [0, 10]) the subtracted tool
is `⟨"XY", 0, 0, 1, 2⟩`, which spans z ∈ [-2, 2]: it contains
(0, 0, 0) but not (0, 0, 10), the reflection of (0, 0, 0) through the
given center along the axis — so the tool is not extruded
symmetrically about the given center (which itself lies outside the
tool) — and the center point (0, 0, 5) of the base solid survives
the cut, so the hole does not fully penetrate the base solid. -/
theorem throughHole_center_symmetry_cex :
    (buildSolid c3spec).2 = .ok c3solid ∧
      memCyl ⟨"XY", 0, 0, 1, 2⟩ ⟨0, 0, 0⟩ = true ∧
      memCyl ⟨"XY", 0, 0, 1, 2⟩ ⟨0, 0, 10⟩ = false ∧
      memCyl ⟨"XY", 0, 0, 1, 2⟩ ⟨0, 0, 5⟩ = false ∧
      memSolid c3solid ⟨0, 0, 5⟩ = true := by
  with_unfolding_all decide

/-- C3 (amended): every through-hole of a successful build is
subtracted as a cylindrical tool extruded by twice the stated depth in
both directions from its sketch plane through the origin (axial
extent [-2·depth, 2·depth], so the total length 2·extDist = 4·depth
is at least 2×depth), and the tool is symmetric about that plane —
the axial coordinate of the given center is ignored, so symmetry and
penetration hold about the plane through the origin, not about the
given center. -/
theorem throughHole_tool_extent_and_symmetry (spec : SolidSpec) (tr : List KernelCall)
    (s : SolidExpr) (hb : buildSolid spec = (tr, .ok s)) (th : ThroughHole)
    (hth : Operation.throughHole th ∈ spec.operations) :
    Tool.cyl (holeTool th) ∈ tr.filterMap cutToolOf ∧
    (holeTool th).extDist = th.depth * 2 ∧
    2 * th.depth ≤ 2 * (holeTool th).extDist ∧
    ∀ p : Point3,
      memCyl (holeTool th) (axialReflect (holeTool th) p) = memCyl (holeTool th) p := by
  have hcuts := buildSolid_cuts_eq spec tr s hb
  have hmem : th ∈ spec.operations.filterMap throughHoleOf :=
    List.mem_filterMap.mpr ⟨.throughHole th, hth, rfl⟩
  have hdist : (holeTool th).extDist = th.depth * 2 := by
    rw [holeTool]
    split
    · rfl
    · split
      · rfl
      · rfl
  obtain ⟨b, hc, hcase⟩ := buildSolid_ok_inv spec tr s hb
  obtain ⟨g1, g2, g3, g4, g5, g6⟩ := classify_ok_spec spec.operations b hc
  have hvalid := g6 (.throughHole th) hth
  have hdpos : 0 < th.depth := by
    simp only [validOp, decide_eq_true_eq] at hvalid
    exact hvalid.2.1
  refine ⟨?_, hdist, ?_, fun p => memCyl_axialReflect (holeTool th) p⟩
  · rw [hcuts]
    simp only [List.mem_append]
    exact Or.inr (List.mem_map.mpr ⟨th, hmem, rfl⟩)
  · rw [hdist]
    linarith

/-- Witness for C3 (amended) at `c3spec`'s through-hole. -/
theorem throughHole_tool_extent_and_symmetry_witness :
    Tool.cyl (holeTool ⟨1, 1, "z", ⟨0, 0, 5⟩⟩) ∈
        (buildSolid c3spec).1.filterMap cutToolOf ∧
      (holeTool ⟨1, 1, "z", ⟨0, 0, 5⟩⟩).extDist = 1 * 2 := by
  have h := throughHole_tool_extent_and_symmetry c3spec (buildSolid c3spec).1 c3solid
    (by with_unfolding_all rfl) ⟨1, 1, "z", ⟨0, 0, 5⟩⟩ (by with_unfolding_all decide)
  exact ⟨h.1, h.2.1⟩

/-- C2: at `c2spec` (x-axis through-hole of depth 3 centered at
(0, 1, 2) through a box) the build succeeds and subtracts the tool
`⟨"YZ", 2, 1, 1, 6⟩` — the code passes `(cz, cy) = (2, 1)` to
`.center` on the "YZ" workplane.  On that plane the in-plane point
(2, 1) is the global point (0, 2, 1), so the tool's axis — the
X-direction line through y = 2, z = 1 — does not pass through the
hole's stated center (0, 1, 2); the center is not even inside the
tool.  (For the "z" and "y" axes the permutation is correct; the
failure is specific to `axis="x"`, whose y/z center coordinates are
swapped.) -/
theorem throughHole_x_axis_center_swapped :
    (buildSolid c2spec).2 =
        .ok (.cut (.baseBox ⟨4, 4, 4, true, true⟩) (.cyl ⟨"YZ", 2, 1, 1, 6⟩)) ∧
      (buildSolid c2spec).1.filterMap cutToolOf = [Tool.cyl ⟨"YZ", 2, 1, 1, 6⟩] ∧
      holeTool ⟨1, 3, "x", ⟨0, 1, 2⟩⟩ = ⟨"YZ", 2, 1, 1, 6⟩ ∧
      planeNormal "YZ" = ⟨1, 0, 0⟩ ∧
      axisContains ⟨"YZ", 2, 1, 1, 6⟩ ⟨0, 1, 2⟩ = false ∧
      memCyl ⟨"YZ", 2, 1, 1, 6⟩ ⟨0, 1, 2⟩ = false := by
  with_unfolding_all decide

end ScanMaster
